import Mathlib

/-!
Verification of the SecurityTrails multi-page scraper (src/sx25.py).

This file shallowly embeds the data model and the pure control-flow of the
scraper: the JSON response shape, session-expiry detection, record
extraction, total-page detection with the ceiling-legitimacy check,
first-page discovery with retry and failure archiving, the fetch loop with
its shared retry budget, cookie reload with revalidation, the round-robin
work distribution, and the collected/persisted result aggregation with
append-only file persistence.

Network calls, file reads and reload outcomes are modelled as explicit
oracle inputs (lists of per-attempt outcomes); side effects such as the
failure archive and the backoff sleeps are modelled as an explicit trace of
events returned alongside the result.
-/

/-- JSON model: the `meta` object of a response branch, holding the
optional `total_pages` hint and the optional `limit_reached` flag. -/
structure MetaJson where
  total_pages : Option Nat
  limit_reached : Option Bool
deriving DecidableEq, Repr

/-- JSON model: one record of a response, holding an optional `hostname`. -/
structure RecordJson where
  hostname : Option String
deriving DecidableEq, Repr

/-- JSON model: the `data` object of a response branch, holding optional
`records` and `meta`. -/
structure BranchData where
  records : Option (List RecordJson)
  meta : Option MetaJson
deriving DecidableEq, Repr

/-- JSON model: one response branch (`apexDomainData`, `serverResponse` or
`dnsData`), with optional embedded `status` and `error` expiry markers and
an optional `data` object. -/
structure Branch where
  status : Option Nat
  error : Option String
  data : Option BranchData
deriving DecidableEq, Repr

/-- JSON model: the `pageProps` root object with its three possible
branches. -/
structure PageProps where
  apexDomainData : Option Branch
  serverResponse : Option Branch
  dnsData : Option Branch
deriving DecidableEq, Repr

/-- JSON model: a whole API response; `pageProps` is absent for malformed
or empty documents. -/
structure ApiData where
  pageProps : Option PageProps
deriving DecidableEq, Repr

/-- Python `str.strip` on the character list: drop leading whitespace. -/
def dropLeadingWs : List Char → List Char
  | [] => []
  | c :: cs => if c.isWhitespace then dropLeadingWs cs else c :: cs

/-- Python `str.strip`: remove leading and trailing whitespace characters.
Embedded over the underlying character list so that it evaluates by kernel
reduction. -/
def pyStrip (s : String) : String :=
  ⟨dropLeadingWs ((dropLeadingWs s.data.reverse).reverse)⟩

/-- `is_session_expired`, inner check of one branch: the branch carries an
embedded expiry marker when `status == 401` or `error == "session_expired"`
(src/sx25.py lines 327 and 332). -/
def branchExpired (b : Branch) : Bool :=
  (b.status == some 401) || (b.error == some "session_expired")

/-- `is_session_expired` (src/sx25.py lines 316-335): checks the
`apexDomainData` branch and the `dnsData` branch of `pageProps` for an
embedded expiry marker. -/
def is_session_expired (d : ApiData) : Bool :=
  match d.pageProps with
  | none => false
  | some pp =>
    (match pp.apexDomainData with
     | some b => branchExpired b
     | none => false) ||
    (match pp.dnsData with
     | some b => branchExpired b
     | none => false)

/-- The record-extraction loop of `extract_domains_from_data`
(src/sx25.py lines 514-517 and 523-526): keep `record.get("hostname", "")`
when it is non-empty and non-whitespace, stripped. -/
def extractRecords : List RecordJson → List String
  | [] => []
  | r :: rs =>
    let hostname := r.hostname.getD ""
    if hostname ≠ "" ∧ pyStrip hostname ≠ "" then
      pyStrip hostname :: extractRecords rs
    else
      extractRecords rs

/-- `extract_domains_from_data` (src/sx25.py lines 502-528): extract
hostnames from `apexDomainData.data.records` when `apexDomainData` carries
a `data` field, `elif` from `serverResponse.data.records`. -/
def extract_domains_from_data (d : ApiData) : List String :=
  match d.pageProps with
  | none => []
  | some pp =>
    match pp.apexDomainData with
    | some apex =>
      match apex.data with
      | some bd =>
        (match bd.records with
         | some recs => extractRecords recs
         | none => [])
      | none =>
        (match pp.serverResponse with
         | some srv =>
           (match srv.data with
            | some bd =>
              (match bd.records with
               | some recs => extractRecords recs
               | none => [])
            | none => [])
         | none => [])
    | none =>
      (match pp.serverResponse with
       | some srv =>
         (match srv.data with
          | some bd =>
            (match bd.records with
             | some recs => extractRecords recs
             | none => [])
          | none => [])
       | none => [])

/-- Helper of `get_total_pages_from_data`: the `data.meta.total_pages`
value of one branch, when all three levels are present. -/
def branchTotalPages (b : Option Branch) : Option Nat :=
  match b with
  | some br =>
    match br.data with
    | some bd =>
      match bd.meta with
      | some m => m.total_pages
      | none => none
    | none => none
  | none => none

/-- `get_total_pages_from_data` (src/sx25.py lines 530-563): return the
`total_pages` hint from `apexDomainData`, else from `serverResponse`, else
the default 100. The `resource_type`/`resource_value` arguments of the
source are used only for log output and are dropped here. -/
def get_total_pages_from_data (d : ApiData) : Nat :=
  match d.pageProps with
  | none => 100
  | some pp =>
    match branchTotalPages pp.apexDomainData with
    | some tp => tp
    | none =>
      match branchTotalPages pp.serverResponse with
      | some tp => tp
      | none => 100

/-- Helper of `is_legitimate_100_pages`: one branch passes the legitimacy
check when its `data.meta` is present and either `limit_reached` is true or
`data.records` is non-empty (src/sx25.py lines 573-594). -/
def branchLegit (b : Option Branch) : Bool :=
  match b with
  | some br =>
    match br.data with
    | some bd =>
      match bd.meta with
      | some m =>
        (m.limit_reached == some true) ||
        (match bd.records with
         | some rs => decide (0 < rs.length)
         | none => false)
      | none => false
    | none => false
  | none => false

/-- `is_legitimate_100_pages` (src/sx25.py lines 565-596): a ceiling page
count is legitimate when the `apexDomainData` branch or the
`serverResponse` branch passes the per-branch legitimacy check. -/
def is_legitimate_100_pages (d : ApiData) : Bool :=
  match d.pageProps with
  | none => false
  | some pp => branchLegit pp.apexDomainData || branchLegit pp.serverResponse

/-- Spec-side predicate for claim C1: the response carries the
"limit reached" signal, or contains at least one record, in the
`apexDomainData` or `serverResponse` branch. Unlike `branchLegit`, the
record check here does not also require the `meta` object, following the
words of the claim. -/
def branchSignalOrRecord (b : Option Branch) : Bool :=
  match b with
  | some br =>
    match br.data with
    | some bd =>
      (match bd.meta with
       | some m => m.limit_reached == some true
       | none => false) ||
      (match bd.records with
       | some rs => decide (0 < rs.length)
       | none => false)
    | none => false
  | none => false

/-- Spec-side predicate for claim C1 over a whole response. -/
def hasLimitSignalOrRecord (d : ApiData) : Bool :=
  match d.pageProps with
  | none => false
  | some pp =>
    branchSignalOrRecord pp.apexDomainData || branchSignalOrRecord pp.serverResponse

/-- Oracle model of one attempt of the request loop in
`get_securitytrails_data`: either a response with a transport status and a
parsed JSON body (`none` body = JSON decode failure), or a connection
error / read timeout. -/
inductive FetchOutcome where
  | response (status : Nat) (body : Option ApiData)
  | connError
deriving DecidableEq, Repr

/-- The retry loop of `get_securitytrails_data` (src/sx25.py lines
429-500), over the list of outcomes of the attempts that remain in the
shared budget and the list of results of successive `reload_cookies`
calls. A 401 status or an embedded expiry marker triggers a reload; on
reload success the loop continues with the next attempt (the Python
`continue`), on reload failure the call returns `none`. Connection errors
also continue; other HTTP errors and parse failures return `none`
immediately; exhausting the attempt list returns `none`. -/
def fetchGo : List FetchOutcome → List Bool → Option ApiData
  | [], _ => none
  | .connError :: rest, reloads => fetchGo rest reloads
  | .response st body :: rest, reloads =>
    if st = 401 then
      match reloads with
      | true :: rs => fetchGo rest rs
      | _ => none
    else if 400 ≤ st then none
    else
      match body with
      | none => none
      | some d =>
        if is_session_expired d then
          match reloads with
          | true :: rs => fetchGo rest rs
          | _ => none
        else some d

/-- `get_securitytrails_data` (src/sx25.py lines 358-500): the request
loop runs for at most `maxRetries` iterations (default 5 in the source),
every iteration consuming one outcome of the oracle. -/
def get_securitytrails_data (maxRetries : Nat) (outcomes : List FetchOutcome)
    (reloads : List Bool) : Option ApiData :=
  fetchGo (outcomes.take maxRetries) reloads

/-- Oracle model of one iteration of `get_first_page_with_retry`: the
result of the `validate_session` check, the result of the `reload_cookies`
call (consulted only when validation failed), and the result of the
nested `get_securitytrails_data` call for page 1. -/
structure AttemptInput where
  validateOk : Bool
  reloadOk : Bool
  fetchResult : Option ApiData
deriving DecidableEq, Repr

/-- Side effects of `get_first_page_with_retry`, recorded as a trace:
`archive n et` is one `save_failed_response` call for attempt `n` with
error type `et`; `sleep s` is the backoff `time.sleep(s)`. -/
inductive TraceEv where
  | archive (attempt : Nat) (errorType : String)
  | sleep (seconds : Nat)
deriving DecidableEq, Repr

/-- The loop body of `get_first_page_with_retry` (src/sx25.py lines
598-642), with `k` the 0-based index of the current attempt. When session
validation and the cookie reload both fail, the iteration is skipped with
a bare `continue` (no archive, no sleep). When the fetch returns data, a
non-ceiling page count returns immediately; a ceiling count of 100 returns
only when legitimate, else the response is archived and the loop sleeps
`2 * (k+1)` seconds. When the fetch returns no data, the failure is
archived and the loop sleeps. Exhausting all attempts returns the
fallback `(none, 100)`. -/
def firstPageGo : Nat → List AttemptInput → (Option ApiData × Nat) × List TraceEv
  | _, [] => ((none, 100), [])
  | k, a :: rest =>
    if !a.validateOk && !a.reloadOk then
      firstPageGo (k + 1) rest
    else
      match a.fetchResult with
      | some d =>
        if get_total_pages_from_data d = 100 then
          if is_legitimate_100_pages d then
            ((some d, 100), [])
          else
            let r := firstPageGo (k + 1) rest
            (r.1, .archive (k + 1) "total_pages_detection_failed" ::
                  .sleep (2 * (k + 1)) :: r.2)
        else
          ((some d, get_total_pages_from_data d), [])
      | none =>
        let r := firstPageGo (k + 1) rest
        (r.1, .archive (k + 1) "no_data_received" ::
              .sleep (2 * (k + 1)) :: r.2)

/-- `get_first_page_with_retry` (src/sx25.py lines 598-642): at most
`maxRetries` attempts (default 10 in the source). -/
def get_first_page_with_retry (maxRetries : Nat) (attempts : List AttemptInput) :
    (Option ApiData × Nat) × List TraceEv :=
  firstPageGo 0 (attempts.take maxRetries)

/-- Spec-side summary for claim C9: the list of (1-based attempt number,
error type) pairs of the attempts on which the first-page fetch was
actually performed and failed, before the first accepted response. -/
def failPrefix : Nat → List AttemptInput → List (Nat × String)
  | _, [] => []
  | k, a :: rest =>
    if !a.validateOk && !a.reloadOk then
      failPrefix (k + 1) rest
    else
      match a.fetchResult with
      | some d =>
        if get_total_pages_from_data d = 100 ∧ ¬ is_legitimate_100_pages d then
          (k + 1, "total_pages_detection_failed") :: failPrefix (k + 1) rest
        else []
      | none => (k + 1, "no_data_received") :: failPrefix (k + 1) rest

/-- One cookie record of the credential file `cookies.json`. -/
structure CookieRec where
  name : String
  value : String
deriving DecidableEq, Repr

/-- `load_securitytrails_cookie` (src/sx25.py lines 243-280): given the
parsed credential file (`none` = missing file or parse error), return the
first record named "SecurityTrails" as a one-entry cookie dict, modelled
as a (name, value) pair. -/
def load_securitytrails_cookie (cookieData : Option (List CookieRec)) :
    Option (String × String) :=
  match cookieData with
  | none => none
  | some recs =>
    match recs.find? (fun c => c.name == "SecurityTrails") with
    | some c => some (c.name, c.value)
    | none => none

/-- `reload_cookies` (src/sx25.py lines 337-356): load the credential
file; if a cookie is found, validate it (the live `validate_session` call
is the oracle `validOk`). Only a cookie that validates is installed as
`current_cookies` and returned; otherwise the function returns `none` and
the previously installed cookies are left unchanged. The result is the
pair (return value, new value of the global `current_cookies`). -/
def reload_cookies (cookieData : Option (List CookieRec))
    (validOk : String × String → Bool) (current : Option (String × String)) :
    Option (String × String) × Option (String × String) :=
  match load_securitytrails_cookie cookieData with
  | some c => if validOk c then (some c, some c) else (none, current)
  | none => (none, current)

/-- The shared result state of the scraper: the in-memory deduplicated set
`current` (the global `current_domains`), the set `saved` of records
already written to the output file (the global `saved_domains`), and the
multiset of lines of the output file itself. Lines are a multiset because
Python set iteration fixes no order for the appended block. -/
structure AggState where
  current : Finset String
  saved : Finset String
  file : Multiset String
deriving DecidableEq

/-- `save_current_results` (src/sx25.py lines 112-141): if nothing was
collected, return unchanged; otherwise compute the new domains
`current - saved`, append exactly them to the file (one line per record),
and union them into `saved`. -/
def save_current_results (st : AggState) : AggState :=
  if st.current = ∅ then st
  else
    let nd := st.current \ st.saved
    if nd = ∅ then st
    else { st with saved := st.saved ∪ nd, file := st.file + nd.val }

/-- The absorb sites of the source (`current_domains.update(domains)` at
src/sx25.py lines 773-774 and 800-801): merge a batch of extracted
records into `current`. -/
def absorbDomains (st : AggState) (batch : List String) : AggState :=
  { st with current := st.current ∪ batch.toFinset }

/-- `initialize_saved_domains` (src/sx25.py lines 143-158): the stripped,
non-empty lines of the existing output file. -/
def initialize_saved_domains (fileLines : List String) : Finset String :=
  ((fileLines.filter (fun l => pyStrip l ≠ "")).map pyStrip).toFinset

/-- The start-up state of a run against an existing output file with lines
`fileLines`: `current_domains` starts empty, `saved_domains` is read from
the file, and the file itself keeps its lines. -/
def initState (fileLines : List String) : AggState :=
  { current := ∅
    saved := initialize_saved_domains fileLines
    file := (fileLines : Multiset String) }

/-- One aggregator operation of a run: absorbing a batch of extracted
records, or a flush via `save_current_results`. -/
inductive AggOp where
  | absorb (batch : List String)
  | flush
deriving DecidableEq

/-- Apply one aggregator operation. -/
def applyAggOp (st : AggState) : AggOp → AggState
  | .absorb b => absorbDomains st b
  | .flush => save_current_results st

/-- A whole run of aggregator operations after start-up. -/
def runAgg (st : AggState) (ops : List AggOp) : AggState :=
  ops.foldl applyAggOp st

/-- The work-item cross product built by `distribute_resources_to_workers`
(src/sx25.py lines 685-696): (resource, search term) combinations when
search terms exist, else plain resources. -/
def buildWorkItems (resources searchTerms : List String) :
    List (String × Option String) :=
  if searchTerms ≠ [] then
    resources.flatMap (fun r => searchTerms.map (fun t => (r, some t)))
  else
    resources.map (fun r => (r, none))

/-- One step of the distribution loop: append work item `x` to the slice
at index `j` (`worker_tasks[i % worker_count].append(work_item)`). -/
def appendAt {α : Type} (ls : List (List α)) (j : Nat) (x : α) : List (List α) :=
  ls.set j (ls.getD j [] ++ [x])

/-- The distribution loop of `distribute_resources_to_workers`
(src/sx25.py lines 699-701), over the enumerated work items. -/
def distributeLoop {α : Type} (w : Nat) : List (Nat × α) → List (List α) → List (List α)
  | [], acc => acc
  | (i, x) :: rest, acc => distributeLoop w rest (appendAt acc (i % w) x)

/-- `distribute_resources_to_workers` (src/sx25.py lines 680-703): with no
resources return the empty list, else distribute the enumerated work items
round-robin over `workerCount` initially empty slices. -/
def distribute_resources_to_workers (resources searchTerms : List String)
    (workerCount : Nat) : List (List (String × Option String)) :=
  if resources = [] then []
  else
    distributeLoop workerCount (buildWorkItems resources searchTerms).enum
      (List.replicate workerCount [])

/-- A benign parsed response with no `pageProps` (e.g. an empty JSON
object). -/
def dEmpty : ApiData := ⟨none⟩

/-- A first-page response whose `apexDomainData.data.meta` reports
`total_pages = 100` with `limit_reached = true`. -/
def dLim : ApiData :=
  ⟨some ⟨some ⟨none, none, some ⟨none, some ⟨some 100, some true⟩⟩⟩, none, none⟩⟩

/-- A first-page response whose `apexDomainData.data.meta` reports
`total_pages = 3`. -/
def dPages3 : ApiData :=
  ⟨some ⟨some ⟨none, none, some ⟨none, some ⟨some 3, none⟩⟩⟩, none, none⟩⟩

/-- A response whose `serverResponse` branch carries the embedded expiry
marker `status = 401`, with no `apexDomainData` and no `dnsData` branch. -/
def dSrvExpired : ApiData := ⟨some ⟨none, some ⟨some 401, none, none⟩, none⟩⟩

/-- A response containing both branches: an `apexDomainData` branch
without a `data` field, and a `serverResponse` branch whose records hold
one hostname. -/
def dBothBranches : ApiData :=
  ⟨some ⟨some ⟨none, none, none⟩,
         some ⟨none, none, some ⟨some [⟨some "x.com"⟩], none⟩⟩, none⟩⟩

/-- A response whose `apexDomainData.data.records` holds the hostnames
"a.com" and "b.com". -/
def dBatch : ApiData :=
  ⟨some ⟨some ⟨none, none, some ⟨some [⟨some "a.com"⟩, ⟨some "b.com"⟩], none⟩⟩,
   none, none⟩⟩

/-- A discovery attempt on which session validation and the cookie reload
both fail, so the loop body is skipped with a bare `continue`. -/
def attemptSkip : AttemptInput := ⟨false, false, none⟩

/-- An aggregator state with one collected, not yet persisted record. -/
def stExample : AggState := ⟨{"c.org"}, ∅, 0⟩

theorem dropLeadingWs_of_head (l : List Char)
    (h : ∀ c, l.head? = some c → c.isWhitespace = false) : dropLeadingWs l = l := by
  cases l with
  | nil => rfl
  | cons c cs => simp [dropLeadingWs, h c rfl]

theorem head?_dropLeadingWs (l : List Char) :
    ∀ c, (dropLeadingWs l).head? = some c → c.isWhitespace = false := by
  induction l with
  | nil => intro c hc; simp [dropLeadingWs] at hc
  | cons a as ih =>
    intro c hc
    by_cases hw : a.isWhitespace
    · exact ih c (by simpa [dropLeadingWs, hw] using hc)
    · rw [dropLeadingWs, if_neg hw] at hc
      simp at hc
      subst hc
      simpa using hw

theorem dropLeadingWs_idem (l : List Char) :
    dropLeadingWs (dropLeadingWs l) = dropLeadingWs l :=
  dropLeadingWs_of_head _ (head?_dropLeadingWs l)

theorem exists_append_dropLeadingWs (l : List Char) :
    ∃ t, l = t ++ dropLeadingWs l := by
  induction l with
  | nil => exact ⟨[], rfl⟩
  | cons a as ih =>
    by_cases hw : a.isWhitespace
    · obtain ⟨t, ht⟩ := ih
      exact ⟨a :: t, by rw [dropLeadingWs, if_pos hw]; simpa using ht⟩
    · exact ⟨[], by simp [dropLeadingWs, hw]⟩

theorem pyStrip_idem (s : String) : pyStrip (pyStrip s) = pyStrip s := by
  unfold pyStrip
  congr 1
  show dropLeadingWs ((dropLeadingWs
    (dropLeadingWs ((dropLeadingWs s.data.reverse).reverse)).reverse).reverse) =
    dropLeadingWs ((dropLeadingWs s.data.reverse).reverse)
  have hfix : dropLeadingWs (dropLeadingWs ((dropLeadingWs s.data.reverse).reverse)).reverse
      = (dropLeadingWs ((dropLeadingWs s.data.reverse).reverse)).reverse := by
    apply dropLeadingWs_of_head
    intro c hc
    rw [List.head?_reverse] at hc
    obtain ⟨t, ht⟩ := exists_append_dropLeadingWs ((dropLeadingWs s.data.reverse).reverse)
    have hmid : ((dropLeadingWs s.data.reverse).reverse).getLast? = some c := by
      rw [ht, List.getLast?_append, hc]
      rfl
    rw [List.getLast?_reverse] at hmid
    exact head?_dropLeadingWs s.data.reverse c hmid
  rw [hfix, List.reverse_reverse]
  exact dropLeadingWs_idem _

theorem extractRecords_eq_filterMap (recs : List RecordJson) :
    extractRecords recs = recs.filterMap (fun rc =>
      if rc.hostname.getD "" ≠ "" ∧ pyStrip (rc.hostname.getD "") ≠ "" then
        some (pyStrip (rc.hostname.getD "")) else none) := by
  induction recs with
  | nil => rfl
  | cons r rs ih =>
    rw [extractRecords, List.filterMap_cons]
    by_cases h : r.hostname.getD "" ≠ "" ∧ pyStrip (r.hostname.getD "") ≠ ""
    · rw [if_pos h, if_pos h, ih]
    · rw [if_neg h, if_neg h, ih]

theorem extractRecords_mem (recs : List RecordJson) (s : String)
    (h : s ∈ extractRecords recs) :
    s ≠ "" ∧ pyStrip s = s ∧
      ∃ r, r ∈ recs ∧ s = pyStrip (r.hostname.getD "") ∧
        pyStrip (r.hostname.getD "") ≠ "" := by
  induction recs with
  | nil => simp [extractRecords] at h
  | cons r rs ih =>
    rw [extractRecords] at h
    by_cases hc : r.hostname.getD "" ≠ "" ∧ pyStrip (r.hostname.getD "") ≠ ""
    · rw [if_pos hc] at h
      rcases List.mem_cons.mp h with heq | hmem
      · subst heq
        exact ⟨hc.2, pyStrip_idem _, r, List.mem_cons_self r rs, rfl, hc.2⟩
      · obtain ⟨h1, h2, r2, hr2, h3⟩ := ih hmem
        exact ⟨h1, h2, r2, List.mem_cons_of_mem r hr2, h3⟩
    · rw [if_neg hc] at h
      obtain ⟨h1, h2, r2, hr2, h3⟩ := ih h
      exact ⟨h1, h2, r2, List.mem_cons_of_mem r hr2, h3⟩

theorem extract_domains_cases (d : ApiData) :
    extract_domains_from_data d = [] ∨
    ∃ recs, extract_domains_from_data d = extractRecords recs := by
  obtain ⟨_ | ⟨apexOpt, srvOpt, dnsOpt⟩⟩ := d
  · left; rfl
  · cases apexOpt with
    | some apex =>
      obtain ⟨ast, aer, _ | ⟨arecs, ameta⟩⟩ := apex
      · cases srvOpt with
        | some srv =>
          obtain ⟨sst, ser, _ | ⟨srecs, smeta⟩⟩ := srv
          · left; rfl
          · cases srecs with
            | some recs => right; exact ⟨recs, rfl⟩
            | none => left; rfl
        | none => left; rfl
      · cases arecs with
        | some recs => right; exact ⟨recs, rfl⟩
        | none => left; rfl
    | none =>
      cases srvOpt with
      | some srv =>
        obtain ⟨sst, ser, _ | ⟨srecs, smeta⟩⟩ := srv
        · left; rfl
        · cases srecs with
          | some recs => right; exact ⟨recs, rfl⟩
          | none => left; rfl
      | none => left; rfl

theorem extract_domains_mem (d : ApiData) (s : String)
    (h : s ∈ extract_domains_from_data d) : s ≠ "" ∧ pyStrip s = s := by
  rcases extract_domains_cases d with hnil | ⟨recs, heq⟩
  · rw [hnil] at h
    simp at h
  · rw [heq] at h
    exact ⟨(extractRecords_mem _ _ h).1, (extractRecords_mem _ _ h).2.1⟩

theorem save_file_eq (st : AggState) :
    (save_current_results st).file = st.file + (st.current \ st.saved).val := by
  unfold save_current_results
  by_cases h1 : st.current = ∅
  · rw [if_pos h1, h1]
    simp
  · rw [if_neg h1]
    by_cases h2 : st.current \ st.saved = ∅
    · rw [if_pos h2, h2]
      simp
    · rw [if_neg h2]

theorem save_saved_eq (st : AggState) :
    (save_current_results st).saved = st.saved ∪ (st.current \ st.saved) := by
  unfold save_current_results
  by_cases h1 : st.current = ∅
  · rw [if_pos h1, h1]
    simp
  · rw [if_neg h1]
    by_cases h2 : st.current \ st.saved = ∅
    · rw [if_pos h2, h2]
      simp
    · rw [if_neg h2]

theorem save_current_eq (st : AggState) :
    (save_current_results st).current = st.current := by
  unfold save_current_results
  by_cases h1 : st.current = ∅
  · rw [if_pos h1]
  · rw [if_neg h1]
    by_cases h2 : st.current \ st.saved = ∅
    · rw [if_pos h2]
    · rw [if_neg h2]

theorem save_of_diff_empty (st : AggState) (h : st.current \ st.saved = ∅) :
    save_current_results st = st := by
  unfold save_current_results
  by_cases h1 : st.current = ∅
  · rw [if_pos h1]
  · rw [if_neg h1, if_pos h]

theorem save_idem (st : AggState) :
    save_current_results (save_current_results st) = save_current_results st := by
  apply save_of_diff_empty
  rw [save_current_eq, save_saved_eq]
  ext x
  simp only [Finset.mem_sdiff, Finset.mem_union, Finset.not_mem_empty, iff_false]
  tauto

theorem runAgg_saved_subset (s0 : Finset String) (ops : List AggOp) :
    ∀ st : AggState, st.saved ⊆ st.current ∪ s0 →
      (runAgg st ops).saved ⊆ (runAgg st ops).current ∪ s0 := by
  induction ops with
  | nil => intro st h; exact h
  | cons op rest ih =>
    intro st h
    rw [runAgg, List.foldl_cons]
    refine ih (applyAggOp st op) ?_
    cases op with
    | absorb b =>
      refine h.trans (Finset.union_subset_union_left ?_)
      exact Finset.subset_union_left
    | flush =>
      show (save_current_results st).saved ⊆ (save_current_results st).current ∪ s0
      rw [save_current_eq, save_saved_eq]
      intro x hx
      rcases Finset.mem_union.mp hx with hx1 | hx2
      · exact h hx1
      · exact Finset.mem_union_left _ (Finset.mem_sdiff.mp hx2).1

/-- Invariant of a run for claim C7: the start-up persisted set stays
installed, every collected record is a stripped non-empty string, and the
line count of every line of the pre-existing file is unchanged. -/
def AggRunInv (s0 : Finset String) (p : Multiset String) (st : AggState) : Prop :=
  s0 ⊆ st.saved ∧ (∀ s ∈ st.current, pyStrip s = s ∧ s ≠ "") ∧
    (∀ s, s ∈ p → st.file.count s = p.count s)

theorem runAgg_inv (s0 : Finset String) (p : Multiset String)
    (hs0 : ∀ s, s ∈ p → pyStrip s = s → s ≠ "" → s ∈ s0) (ops : List AggOp) :
    ∀ st : AggState, AggRunInv s0 p st →
      (∀ b, AggOp.absorb b ∈ ops → ∀ s ∈ b, pyStrip s = s ∧ s ≠ "") →
      AggRunInv s0 p (runAgg st ops) := by
  induction ops with
  | nil => intro st h _; exact h
  | cons op rest ih =>
    intro st h hops
    rw [runAgg, List.foldl_cons]
    refine ih (applyAggOp st op) ?_ (fun b hb => hops b (List.mem_cons_of_mem op hb))
    obtain ⟨hsub, hcur, hfile⟩ := h
    cases op with
    | absorb b =>
      refine ⟨hsub, ?_, hfile⟩
      intro s hs
      rcases Finset.mem_union.mp hs with hs1 | hs2
      · exact hcur s hs1
      · exact hops b (List.mem_cons_self _ _) s (List.mem_toFinset.mp hs2)
    | flush =>
      show AggRunInv s0 p (save_current_results st)
      refine ⟨?_, ?_, ?_⟩
      · rw [save_saved_eq]
        exact hsub.trans Finset.subset_union_left
      · rw [save_current_eq]
        exact hcur
      · intro s hs
        have hnot : s ∉ st.current \ st.saved := by
          intro hmem
          have hm := Finset.mem_sdiff.mp hmem
          obtain ⟨hstrip, hne⟩ := hcur s hm.1
          exact hm.2 (hsub (hs0 s hs hstrip hne))
        have hzero : Multiset.count s (st.current \ st.saved).val = 0 :=
          Multiset.count_eq_zero.mpr (fun hm => hnot (Finset.mem_val.mp hm))
        rw [save_file_eq, Multiset.count_add, hzero, Nat.add_zero, hfile s hs]

theorem appendAt_getD_self {α : Type} (ls : List (List α)) (j : Nat) (x : α)
    (hj : j < ls.length) : (appendAt ls j x).getD j [] = ls.getD j [] ++ [x] := by
  induction ls generalizing j with
  | nil => simp at hj
  | cons l rest ih =>
    cases j with
    | zero => rfl
    | succ k =>
      show (appendAt rest k x).getD k [] = rest.getD k [] ++ [x]
      exact ih k (Nat.lt_of_succ_lt_succ hj)

theorem appendAt_getD_ne {α : Type} (ls : List (List α)) (j j2 : Nat) (x : α)
    (h : j ≠ j2) : (appendAt ls j x).getD j2 [] = ls.getD j2 [] := by
  induction ls generalizing j j2 with
  | nil => rfl
  | cons l rest ih =>
    cases j with
    | zero =>
      cases j2 with
      | zero => exact absurd rfl h
      | succ k2 => rfl
    | succ k =>
      cases j2 with
      | zero => rfl
      | succ k2 =>
        show (appendAt rest k x).getD k2 [] = rest.getD k2 []
        exact ih k k2 (fun hk => h (by rw [hk]))

theorem appendAt_length {α : Type} (ls : List (List α)) (j : Nat) (x : α) :
    (appendAt ls j x).length = ls.length :=
  List.length_set ls j _

theorem distributeLoop_length {α : Type} (w : Nat) (l : List (Nat × α)) :
    ∀ acc : List (List α), (distributeLoop w l acc).length = acc.length := by
  induction l with
  | nil => intro acc; rfl
  | cons p rest ih =>
    intro acc
    obtain ⟨i, x⟩ := p
    rw [distributeLoop, ih, appendAt_length]

theorem distributeLoop_getD {α : Type} (w : Nat) (hw : 0 < w) (l : List (Nat × α)) :
    ∀ acc : List (List α), acc.length = w → ∀ j,
      (distributeLoop w l acc).getD j [] =
        acc.getD j [] ++ (l.filter (fun p => p.1 % w = j)).map Prod.snd := by
  induction l with
  | nil => intro acc hacc j; simp [distributeLoop]
  | cons p rest ih =>
    intro acc hacc j
    obtain ⟨i, x⟩ := p
    rw [distributeLoop, ih (appendAt acc (i % w) x) (by rw [appendAt_length, hacc]) j]
    by_cases hj : i % w = j
    · subst hj
      rw [appendAt_getD_self acc (i % w) x (by rw [hacc]; exact Nat.mod_lt i hw)]
      rw [List.filter_cons, if_pos (by simp)]
      simp [List.append_assoc]
    · rw [appendAt_getD_ne acc (i % w) j x hj]
      rw [List.filter_cons, if_neg (by simpa using hj)]

theorem sum_map_length_appendAt {α : Type} (ls : List (List α)) (j : Nat) (x : α)
    (hj : j < ls.length) :
    ((appendAt ls j x).map List.length).sum = (ls.map List.length).sum + 1 := by
  induction ls generalizing j with
  | nil => simp at hj
  | cons l rest ih =>
    cases j with
    | zero =>
      show ((l ++ [x]).length :: rest.map List.length).sum =
        (l.length :: rest.map List.length).sum + 1
      simp [List.sum_cons]
      omega
    | succ k =>
      show ((l :: appendAt rest k x).map List.length).sum =
        ((l :: rest).map List.length).sum + 1
      simp only [List.map_cons, List.sum_cons, ih k (Nat.lt_of_succ_lt_succ hj)]
      omega

theorem distributeLoop_sum {α : Type} (w : Nat) (hw : 0 < w) (l : List (Nat × α)) :
    ∀ acc : List (List α), acc.length = w →
      ((distributeLoop w l acc).map List.length).sum =
        (acc.map List.length).sum + l.length := by
  induction l with
  | nil => intro acc hacc; simp [distributeLoop]
  | cons p rest ih =>
    intro acc hacc
    obtain ⟨i, x⟩ := p
    rw [distributeLoop, ih (appendAt acc (i % w) x) (by rw [appendAt_length, hacc])]
    rw [sum_map_length_appendAt acc (i % w) x (by rw [hacc]; exact Nat.mod_lt i hw)]
    simp [List.length_cons]
    omega

theorem getD_replicate_nil {α : Type} (w j : Nat) :
    (List.replicate w ([] : List α)).getD j [] = [] := by
  induction w generalizing j with
  | zero => cases j <;> rfl
  | succ n ih =>
    cases j with
    | zero => rfl
    | succ k => exact ih k

theorem branchLegit_signal (b : Option Branch) (h : branchLegit b = true) :
    branchSignalOrRecord b = true := by
  unfold branchLegit at h
  unfold branchSignalOrRecord
  rcases b with _ | ⟨bst, ber, _ | ⟨brecs, _ | bmeta⟩⟩ <;> simp_all

theorem legit_signal (d : ApiData) (h : is_legitimate_100_pages d = true) :
    hasLimitSignalOrRecord d = true := by
  rcases d with ⟨_ | pp⟩
  · exact absurd h (by simp [is_legitimate_100_pages])
  · have h2 : (branchLegit pp.apexDomainData || branchLegit pp.serverResponse) = true := h
    show (branchSignalOrRecord pp.apexDomainData || branchSignalOrRecord pp.serverResponse) = true
    rcases Bool.or_eq_true_iff.mp h2 with h3 | h3
    · rw [branchLegit_signal _ h3]
      rfl
    · rw [branchLegit_signal _ h3]
      simp

theorem firstPageGo_cons_skip (k : Nat) (a : AttemptInput) (rest : List AttemptInput)
    (h : (!a.validateOk && !a.reloadOk) = true) :
    firstPageGo k (a :: rest) = firstPageGo (k + 1) rest := by
  rw [firstPageGo, if_pos h]

theorem firstPageGo_cons_none (k : Nat) (a : AttemptInput) (rest : List AttemptInput)
    (hs : ¬ (!a.validateOk && !a.reloadOk) = true) (hf : a.fetchResult = none) :
    firstPageGo k (a :: rest) = ((firstPageGo (k + 1) rest).1,
      TraceEv.archive (k + 1) "no_data_received" ::
      TraceEv.sleep (2 * (k + 1)) :: (firstPageGo (k + 1) rest).2) := by
  rw [firstPageGo, if_neg hs, hf]

theorem firstPageGo_cons_legit (k : Nat) (a : AttemptInput) (rest : List AttemptInput)
    (d0 : ApiData) (hs : ¬ (!a.validateOk && !a.reloadOk) = true)
    (hf : a.fetchResult = some d0) (h100 : get_total_pages_from_data d0 = 100)
    (hleg : is_legitimate_100_pages d0 = true) :
    firstPageGo k (a :: rest) = ((some d0, 100), []) := by
  rw [firstPageGo, if_neg hs, hf]
  show (if get_total_pages_from_data d0 = 100 then _ else _) = _
  rw [if_pos h100, if_pos hleg]

theorem firstPageGo_cons_illegit (k : Nat) (a : AttemptInput) (rest : List AttemptInput)
    (d0 : ApiData) (hs : ¬ (!a.validateOk && !a.reloadOk) = true)
    (hf : a.fetchResult = some d0) (h100 : get_total_pages_from_data d0 = 100)
    (hleg : ¬ is_legitimate_100_pages d0 = true) :
    firstPageGo k (a :: rest) = ((firstPageGo (k + 1) rest).1,
      TraceEv.archive (k + 1) "total_pages_detection_failed" ::
      TraceEv.sleep (2 * (k + 1)) :: (firstPageGo (k + 1) rest).2) := by
  rw [firstPageGo, if_neg hs, hf]
  show (if get_total_pages_from_data d0 = 100 then _ else _) = _
  rw [if_pos h100, if_neg hleg]

theorem firstPageGo_cons_ok (k : Nat) (a : AttemptInput) (rest : List AttemptInput)
    (d0 : ApiData) (hs : ¬ (!a.validateOk && !a.reloadOk) = true)
    (hf : a.fetchResult = some d0) (h100 : ¬ get_total_pages_from_data d0 = 100) :
    firstPageGo k (a :: rest) = ((some d0, get_total_pages_from_data d0), []) := by
  rw [firstPageGo, if_neg hs, hf]
  show (if get_total_pages_from_data d0 = 100 then _ else _) = _
  rw [if_neg h100]

theorem failPrefix_cons_skip (k : Nat) (a : AttemptInput) (rest : List AttemptInput)
    (h : (!a.validateOk && !a.reloadOk) = true) :
    failPrefix k (a :: rest) = failPrefix (k + 1) rest := by
  rw [failPrefix, if_pos h]

theorem failPrefix_cons_none (k : Nat) (a : AttemptInput) (rest : List AttemptInput)
    (hs : ¬ (!a.validateOk && !a.reloadOk) = true) (hf : a.fetchResult = none) :
    failPrefix k (a :: rest) =
      (k + 1, "no_data_received") :: failPrefix (k + 1) rest := by
  rw [failPrefix, if_neg hs, hf]

theorem failPrefix_cons_illegit (k : Nat) (a : AttemptInput) (rest : List AttemptInput)
    (d0 : ApiData) (hs : ¬ (!a.validateOk && !a.reloadOk) = true)
    (hf : a.fetchResult = some d0) (h100 : get_total_pages_from_data d0 = 100)
    (hleg : ¬ is_legitimate_100_pages d0 = true) :
    failPrefix k (a :: rest) =
      (k + 1, "total_pages_detection_failed") :: failPrefix (k + 1) rest := by
  rw [failPrefix, if_neg hs, hf]
  show (if get_total_pages_from_data d0 = 100 ∧ ¬ is_legitimate_100_pages d0 = true
    then _ else _) = _
  rw [if_pos ⟨h100, hleg⟩]

theorem failPrefix_cons_accept (k : Nat) (a : AttemptInput) (rest : List AttemptInput)
    (d0 : ApiData) (hs : ¬ (!a.validateOk && !a.reloadOk) = true)
    (hf : a.fetchResult = some d0)
    (hc : ¬ (get_total_pages_from_data d0 = 100 ∧ ¬ is_legitimate_100_pages d0 = true)) :
    failPrefix k (a :: rest) = [] := by
  rw [failPrefix, if_neg hs, hf]
  show (if get_total_pages_from_data d0 = 100 ∧ ¬ is_legitimate_100_pages d0 = true
    then _ else _) = _
  rw [if_neg hc]

theorem firstPageGo_some_ceiling (l : List AttemptInput) :
    ∀ k d, (firstPageGo k l).1 = (some d, 100) →
      is_legitimate_100_pages d = true := by
  induction l with
  | nil => intro k d h; simp [firstPageGo] at h
  | cons a rest ih =>
    intro k d h
    by_cases hskip : (!a.validateOk && !a.reloadOk) = true
    · rw [firstPageGo_cons_skip k a rest hskip] at h
      exact ih (k + 1) d h
    · cases hf : a.fetchResult with
      | none =>
        rw [firstPageGo_cons_none k a rest hskip hf] at h
        exact ih (k + 1) d h
      | some d0 =>
        by_cases h100 : get_total_pages_from_data d0 = 100
        · by_cases hleg : is_legitimate_100_pages d0 = true
          · rw [firstPageGo_cons_legit k a rest d0 hskip hf h100 hleg] at h
            simp only [Prod.mk.injEq, Option.some.injEq, and_true] at h
            rw [← h]
            exact hleg
          · rw [firstPageGo_cons_illegit k a rest d0 hskip hf h100 hleg] at h
            exact ih (k + 1) d h
        · rw [firstPageGo_cons_ok k a rest d0 hskip hf h100] at h
          simp only [Prod.mk.injEq, Option.some.injEq] at h
          exact absurd h.2 h100

theorem firstPageGo_none (l : List AttemptInput) :
    ∀ k, (firstPageGo k l).1.1 = none → (firstPageGo k l).1 = (none, 100) := by
  induction l with
  | nil => intro k _; rfl
  | cons a rest ih =>
    intro k h
    by_cases hskip : (!a.validateOk && !a.reloadOk) = true
    · rw [firstPageGo_cons_skip k a rest hskip] at h ⊢
      exact ih (k + 1) h
    · cases hf : a.fetchResult with
      | none =>
        rw [firstPageGo_cons_none k a rest hskip hf] at h ⊢
        exact ih (k + 1) h
      | some d0 =>
        by_cases h100 : get_total_pages_from_data d0 = 100
        · by_cases hleg : is_legitimate_100_pages d0 = true
          · rw [firstPageGo_cons_legit k a rest d0 hskip hf h100 hleg] at h
            simp at h
          · rw [firstPageGo_cons_illegit k a rest d0 hskip hf h100 hleg] at h ⊢
            exact ih (k + 1) h
        · rw [firstPageGo_cons_ok k a rest d0 hskip hf h100] at h
          simp at h

theorem firstPageGo_trace (l : List AttemptInput) :
    ∀ k, (firstPageGo k l).2 =
      (failPrefix k l).flatMap
        (fun p => [TraceEv.archive p.1 p.2, TraceEv.sleep (2 * p.1)]) := by
  induction l with
  | nil => intro k; rfl
  | cons a rest ih =>
    intro k
    by_cases hskip : (!a.validateOk && !a.reloadOk) = true
    · rw [firstPageGo_cons_skip k a rest hskip, failPrefix_cons_skip k a rest hskip]
      exact ih (k + 1)
    · cases hf : a.fetchResult with
      | none =>
        rw [firstPageGo_cons_none k a rest hskip hf, failPrefix_cons_none k a rest hskip hf]
        simp [ih (k + 1)]
      | some d0 =>
        by_cases h100 : get_total_pages_from_data d0 = 100
        · by_cases hleg : is_legitimate_100_pages d0 = true
          · rw [firstPageGo_cons_legit k a rest d0 hskip hf h100 hleg,
              failPrefix_cons_accept k a rest d0 hskip hf (by simp [h100, hleg])]
            simp
          · rw [firstPageGo_cons_illegit k a rest d0 hskip hf h100 hleg,
              failPrefix_cons_illegit k a rest d0 hskip hf h100 hleg]
            simp [ih (k + 1)]
        · rw [firstPageGo_cons_ok k a rest d0 hskip hf h100,
            failPrefix_cons_accept k a rest d0 hskip hf (by simp [h100])]
          simp

theorem failPrefix_length (l : List AttemptInput) :
    ∀ k, (failPrefix k l).length ≤ l.length := by
  induction l with
  | nil => intro k; simp [failPrefix]
  | cons a rest ih =>
    intro k
    by_cases hskip : (!a.validateOk && !a.reloadOk) = true
    · rw [failPrefix_cons_skip k a rest hskip]
      exact (ih (k + 1)).trans (Nat.le_succ _)
    · cases hf : a.fetchResult with
      | none =>
        rw [failPrefix_cons_none k a rest hskip hf]
        simpa using ih (k + 1)
      | some d0 =>
        by_cases hcond : get_total_pages_from_data d0 = 100 ∧
            ¬ is_legitimate_100_pages d0 = true
        · rw [failPrefix_cons_illegit k a rest d0 hskip hf hcond.1 hcond.2]
          simpa using ih (k + 1)
        · rw [failPrefix_cons_accept k a rest d0 hskip hf hcond]
          simp

theorem fetchGo_replicate_conn (n : Nat) :
    ∀ reloads : List Bool,
      fetchGo (List.replicate n FetchOutcome.connError) reloads = none := by
  induction n with
  | zero => intro reloads; rfl
  | succ m ih =>
    intro reloads
    rw [List.replicate_succ]
    exact ih reloads

theorem is_session_expired_iff (d : ApiData) :
    is_session_expired d = true ↔ ∃ pp bch, d.pageProps = some pp ∧
      (pp.apexDomainData = some bch ∨ pp.dnsData = some bch) ∧
      (bch.status = some 401 ∨ bch.error = some "session_expired") := by
  rcases d with ⟨_ | pp⟩
  · simp [is_session_expired]
  · constructor
    · intro h
      have h2 : ((match pp.apexDomainData with
          | some b => branchExpired b
          | none => false) ||
        (match pp.dnsData with
          | some b => branchExpired b
          | none => false)) = true := h
      rcases Bool.or_eq_true_iff.mp h2 with h3 | h3
      · cases hap : pp.apexDomainData with
        | none => rw [hap] at h3; simp at h3
        | some bch =>
          rw [hap] at h3
          refine ⟨pp, bch, rfl, Or.inl hap, ?_⟩
          rcases Bool.or_eq_true_iff.mp h3 with h4 | h4
          · exact Or.inl (by simpa using h4)
          · exact Or.inr (by simpa using h4)
      · cases hdn : pp.dnsData with
        | none => rw [hdn] at h3; simp at h3
        | some bch =>
          rw [hdn] at h3
          refine ⟨pp, bch, rfl, Or.inr hdn, ?_⟩
          rcases Bool.or_eq_true_iff.mp h3 with h4 | h4
          · exact Or.inl (by simpa using h4)
          · exact Or.inr (by simpa using h4)
    · rintro ⟨pp2, bch, hpp, hbr, hmark⟩
      have hpp2 : pp2 = pp := by
        have h5 : some pp = some pp2 := hpp
        exact (Option.some_inj.mp h5).symm
      subst hpp2
      show ((match pp2.apexDomainData with
          | some b => branchExpired b
          | none => false) ||
        (match pp2.dnsData with
          | some b => branchExpired b
          | none => false)) = true
      have hbe : branchExpired bch = true := by
        unfold branchExpired
        rcases hmark with hm | hm <;> simp [hm]
      rcases hbr with hb | hb
      · rw [hb]
        simp [hbe]
      · rw [hb]
        simp [hbe]

/-- Claim C1: pagination discovery never returns a total-page count of 100
with a successful first page unless the response passes the legitimacy
check, hence carries the "limit reached" signal or at least one record;
and whenever it fails to produce first-page data, it returns exactly the
fallback pair (no data, 100). -/
theorem claim_C1 (maxR : Nat) (attempts : List AttemptInput) (d : ApiData) :
    ((get_first_page_with_retry maxR attempts).1 = (some d, 100) →
      is_legitimate_100_pages d = true ∧ hasLimitSignalOrRecord d = true) ∧
    ((get_first_page_with_retry maxR attempts).1.1 = none →
      (get_first_page_with_retry maxR attempts).1 = (none, 100)) := by
  constructor
  · intro h
    have hleg := firstPageGo_some_ceiling (attempts.take maxR) 0 d h
    exact ⟨hleg, legit_signal d hleg⟩
  · intro h
    exact firstPageGo_none (attempts.take maxR) 0 h

/-- Claim C1 witness: a run accepting 100 pages because the response
carries the limit signal, and a run with no attempts falling back to
(none, 100). -/
theorem claim_C1_witness :
    (is_legitimate_100_pages dLim = true ∧ hasLimitSignalOrRecord dLim = true) ∧
    (get_first_page_with_retry 10 []).1 = (none, 100) :=
  ⟨(claim_C1 10 [⟨true, true, some dLim⟩] dLim).1 (by decide),
   (claim_C1 10 [] dLim).2 (by decide)⟩

/-- Claim C2: the scheduler partitions the work items into `w` slices,
slice `j` holding, in their original relative order, exactly the items
whose index is congruent to `j` modulo `w`; every item at index `i` lands
in slice `i % w`, and the slice sizes add up to the number of items, so
the slices are disjoint and jointly cover the task list. Determinism is
inherent: `distribute_resources_to_workers` is a pure function of the
resource list, the search terms and the worker count. -/
theorem claim_C2 (resources searchTerms : List String) (w : Nat)
    (hw : 0 < w) (hres : resources ≠ []) :
    (distribute_resources_to_workers resources searchTerms w).length = w ∧
    (∀ j, (distribute_resources_to_workers resources searchTerms w).getD j [] =
      ((buildWorkItems resources searchTerms).enum.filter
        (fun p => p.1 % w = j)).map Prod.snd) ∧
    (∀ i x, (buildWorkItems resources searchTerms)[i]? = some x →
      x ∈ (distribute_resources_to_workers resources searchTerms w).getD (i % w) []) ∧
    ((distribute_resources_to_workers resources searchTerms w).map List.length).sum =
      (buildWorkItems resources searchTerms).length := by
  have hd : distribute_resources_to_workers resources searchTerms w =
      distributeLoop w (buildWorkItems resources searchTerms).enum
        (List.replicate w []) := by
    rw [distribute_resources_to_workers, if_neg hres]
  have hchar : ∀ j, (distribute_resources_to_workers resources searchTerms w).getD j [] =
      ((buildWorkItems resources searchTerms).enum.filter
        (fun p => p.1 % w = j)).map Prod.snd := by
    intro j
    rw [hd, distributeLoop_getD w hw _ _ (List.length_replicate w []) j,
      getD_replicate_nil]
    simp
  refine ⟨?_, hchar, ?_, ?_⟩
  · rw [hd, distributeLoop_length, List.length_replicate]
  · intro i x hx
    have hmem : (i, x) ∈ (buildWorkItems resources searchTerms).enum :=
      List.mem_enum_iff_getElem?.mpr hx
    rw [hchar (i % w)]
    exact List.mem_map.mpr ⟨(i, x), List.mem_filter.mpr ⟨hmem, by simp⟩, rfl⟩
  · rw [hd, distributeLoop_sum w hw _ _ (List.length_replicate w [])]
    simp [List.enum_length]

/-- Claim C2 witness: three resources and no search terms distributed over
two workers give two slices. -/
theorem claim_C2_witness :
    (distribute_resources_to_workers ["a", "b", "c"] [] 2).length = 2 :=
  (claim_C2 ["a", "b", "c"] [] 2 (by decide) (by decide)).1

/-- Claim C3 counterexample: the claim says a page retry after a
successful credential reload does not count against the transport retry
budget, so transport failures still get the full configured number of
attempts. With a budget of 2 attempts, the outcome sequence
(connection error, good response) succeeds; prefixing one unauthorized
response whose reload succeeds makes the very same transport sequence
fail, because the reload retry consumed one attempt of the shared
budget. -/
theorem claim_C3_counterexample :
    get_securitytrails_data 2
      [FetchOutcome.response 401 none, FetchOutcome.connError,
       FetchOutcome.response 200 (some dEmpty)] [true] = none ∧
    get_securitytrails_data 2
      [FetchOutcome.connError, FetchOutcome.response 200 (some dEmpty)] [] =
      some dEmpty := by
  constructor
  · decide
  · decide

/-- Claim C3 as amended: after an authorization failure with a successful
reload, the same page is retried with the new session, but the retry
consumes one attempt of the shared `max_retries` budget (the loop simply
continues); when the reload fails the fetch returns failure immediately;
a response whose body embeds an expiry marker behaves the same way; and a
run of connection errors exhausts the budget and fails. -/
theorem claim_C3_amended (b : Option ApiData) (rest : List FetchOutcome)
    (rs : List Bool) (d : ApiData) (r : Bool) (n maxR : Nat) (reloads : List Bool) :
    fetchGo (FetchOutcome.response 401 b :: rest) (true :: rs) = fetchGo rest rs ∧
    fetchGo (FetchOutcome.response 401 b :: rest) (false :: rs) = none ∧
    fetchGo (FetchOutcome.response 200 (some d) :: rest) (r :: rs) =
      (if is_session_expired d then (if r then fetchGo rest rs else none)
       else some d) ∧
    get_securitytrails_data maxR (List.replicate n FetchOutcome.connError)
      reloads = none := by
  refine ⟨rfl, rfl, ?_, ?_⟩
  · by_cases he : is_session_expired d
    · cases r <;> simp [fetchGo, he]
    · simp [fetchGo, he]
  · rw [get_securitytrails_data, List.take_replicate]
    exact fetchGo_replicate_conn _ _

/-- Claim C4 counterexample: a response whose `serverResponse` branch
carries the embedded expiry marker (`status = 401`) is not detected by
`is_session_expired`, which only inspects `apexDomainData` and `dnsData`;
the claim says the marker is checked in the server-response branch. -/
theorem claim_C4_counterexample :
    (dSrvExpired.pageProps.map
      (fun pp => (pp.serverResponse.map branchExpired).getD false)).getD false =
      true ∧
    is_session_expired dSrvExpired = false := by
  constructor
  · decide
  · decide

/-- Claim C4 as amended: session expiry is detected through both
channels — an explicit 401 transport status, and an embedded
`status`/`error` marker — but the embedded marker is looked for in the
`apexDomainData` and `dnsData` branches, not in the `serverResponse`
branch. Both channels trigger the same reload path on every response of
the fetch loop. -/
theorem claim_C4_amended (d : ApiData) (rest : List FetchOutcome) (r : Bool)
    (rs : List Bool) (b : Option ApiData) :
    (is_session_expired d = true ↔ ∃ pp bch, d.pageProps = some pp ∧
      (pp.apexDomainData = some bch ∨ pp.dnsData = some bch) ∧
      (bch.status = some 401 ∨ bch.error = some "session_expired")) ∧
    fetchGo (FetchOutcome.response 401 b :: rest) (r :: rs) =
      (if r then fetchGo rest rs else none) ∧
    fetchGo (FetchOutcome.response 200 (some d) :: rest) (r :: rs) =
      (if is_session_expired d then (if r then fetchGo rest rs else none)
       else some d) := by
  refine ⟨is_session_expired_iff d, ?_, ?_⟩
  · cases r <;> rfl
  · by_cases he : is_session_expired d
    · cases r <;> simp [fetchGo, he]
    · simp [fetchGo, he]

/-- Claim C5 counterexample: right after start-up reconciliation against
an existing non-empty output file, the persisted set holds the file lines
while the collected set is still empty, so persisted is not a subset of
collected. -/
theorem claim_C5_counterexample :
    ¬ ((initState ["a.com"]).saved ⊆ (initState ["a.com"]).current) := by
  decide

/-- Claim C5 as amended: absorbing a batch and flushing both preserve the
inclusion of the persisted set in the collected set, but start-up
reconciliation loads the existing file into the persisted set only, so
over a whole run the invariant that holds is that the persisted set is
contained in the union of the collected set and the initially loaded
set (the plain inclusion holds from start-up only when the prior file
contributes nothing). -/
theorem claim_C5_amended (st : AggState) (b : List String)
    (fileLines : List String) (ops : List AggOp) :
    (st.saved ⊆ st.current →
      (absorbDomains st b).saved ⊆ (absorbDomains st b).current) ∧
    (st.saved ⊆ st.current →
      (save_current_results st).saved ⊆ (save_current_results st).current) ∧
    (runAgg (initState fileLines) ops).saved ⊆
      (runAgg (initState fileLines) ops).current ∪ (initState fileLines).saved := by
  refine ⟨?_, ?_, ?_⟩
  · intro h
    exact h.trans Finset.subset_union_left
  · intro h
    rw [save_saved_eq, save_current_eq]
    exact Finset.union_subset h Finset.sdiff_subset
  · refine runAgg_saved_subset (initState fileLines).saved ops (initState fileLines) ?_
    intro x hx
    exact Finset.mem_union_right _ hx

/-- Claim C5 witness: the preservation statements applied to a state with
one collected, unpersisted record. -/
theorem claim_C5_witness :
    (absorbDomains stExample ["d.net"]).saved ⊆
      (absorbDomains stExample ["d.net"]).current ∧
    (save_current_results stExample).saved ⊆
      (save_current_results stExample).current :=
  ⟨(claim_C5_amended stExample ["d.net"] [] []).1 (by decide),
   (claim_C5_amended stExample ["d.net"] [] []).2.1 (by decide)⟩

/-- Claim C6: a flush appends to the output file exactly the multiset of
records in collected minus persisted, one line each, unions that
difference into persisted, leaves collected unchanged, and a second flush
with nothing newly collected is a no-op (flush is idempotent). -/
theorem claim_C6 (st : AggState) :
    (save_current_results st).file = st.file + (st.current \ st.saved).val ∧
    (save_current_results st).saved = st.saved ∪ (st.current \ st.saved) ∧
    (save_current_results st).current = st.current ∧
    save_current_results (save_current_results st) = save_current_results st :=
  ⟨save_file_eq st, save_saved_eq st, save_current_eq st, save_idem st⟩

/-- Claim C7: on restart against an existing output file, all stripped
non-empty lines of the file are loaded into the persisted set, and over
any run whose absorbed batches come from record extraction, the line
count of every pre-existing line in the file is unchanged — no line
already present is ever written again. -/
theorem claim_C7 (fileLines : List String) (ops : List AggOp)
    (hops : ∀ b, AggOp.absorb b ∈ ops → ∃ d, b = extract_domains_from_data d) :
    (∀ l ∈ fileLines, pyStrip l ≠ "" → pyStrip l ∈ (initState fileLines).saved) ∧
    (∀ s ∈ fileLines,
      ((runAgg (initState fileLines) ops).file).count s =
        ((initState fileLines).file).count s) := by
  constructor
  · intro l hl hne
    exact List.mem_toFinset.mpr
      (List.mem_map.mpr ⟨l, List.mem_filter.mpr ⟨hl, by simpa using hne⟩, rfl⟩)
  · intro s hs
    have hbatches : ∀ b, AggOp.absorb b ∈ ops → ∀ x ∈ b, pyStrip x = x ∧ x ≠ "" := by
      intro b hb x hx
      obtain ⟨d, hd⟩ := hops b hb
      subst hd
      have hm := extract_domains_mem d x hx
      exact ⟨hm.2, hm.1⟩
    have hs0 : ∀ x, x ∈ (initState fileLines).file → pyStrip x = x → x ≠ "" →
        x ∈ (initState fileLines).saved := by
      intro x hx hstrip hne
      refine List.mem_toFinset.mpr (List.mem_map.mpr
        ⟨x, List.mem_filter.mpr ⟨Multiset.mem_coe.mp hx, ?_⟩, hstrip⟩)
      rw [hstrip]
      simpa using hne
    have hinit : AggRunInv (initState fileLines).saved (initState fileLines).file
        (initState fileLines) := by
      refine ⟨Finset.Subset.refl _, ?_, fun t _ => rfl⟩
      intro t ht
      simp [initState] at ht
    have hinv := runAgg_inv (initState fileLines).saved (initState fileLines).file
      hs0 ops (initState fileLines) hinit hbatches
    exact hinv.2.2 s (Multiset.mem_coe.mpr hs)

/-- Claim C7 witness: a run against a file already containing "a.com"
that absorbs an extracted batch containing "a.com" and "b.com" and
flushes; the count of the pre-existing line "a.com" stays 1. -/
theorem claim_C7_witness :
    ((runAgg (initState ["a.com"])
      [AggOp.absorb (extract_domains_from_data dBatch), AggOp.flush]).file).count
        "a.com" = ((initState ["a.com"]).file).count "a.com" :=
  (claim_C7 ["a.com"] [AggOp.absorb (extract_domains_from_data dBatch), AggOp.flush]
    (by
      intro b hb
      rcases List.mem_cons.mp hb with h1 | h1
      · exact ⟨dBatch, by injection h1⟩
      · rcases List.mem_cons.mp h1 with h2 | h2
        · exact absurd h2 (by simp)
        · exact absurd h2 (by simp))).2 "a.com" (by decide)

/-- Claim C8: when the credential reload loads a cookie that fails
revalidation, or loads nothing, the reload returns failure and the
previously installed session is retained unchanged; the only other
possibility is that a cookie that passed validation is returned and
installed — a session known to be invalid is never installed. -/
theorem claim_C8 (cookieData : Option (List CookieRec))
    (validOk : String × String → Bool) (current : Option (String × String)) :
    ((reload_cookies cookieData validOk current).1 = none ∧
      (reload_cookies cookieData validOk current).2 = current) ∨
    (∃ c, validOk c = true ∧ load_securitytrails_cookie cookieData = some c ∧
      reload_cookies cookieData validOk current = (some c, some c)) := by
  unfold reload_cookies
  cases hl : load_securitytrails_cookie cookieData with
  | none => exact Or.inl ⟨rfl, rfl⟩
  | some c =>
    by_cases hv : validOk c = true
    · exact Or.inr ⟨c, hv, rfl, by simp [hv]⟩
    · exact Or.inl (by simp [hv])

/-- Claim C9 counterexample: the claim says every failed attempt is
archived exactly once and is followed by a linear backoff delay. In a run
whose first attempt fails with both session validation and cookie reload
failing (the loop body is skipped by `continue`), and whose second
attempt succeeds with 3 pages, the trace holds no archive event and no
sleep at all — the failed first attempt was neither archived nor followed
by a delay. -/
theorem claim_C9_counterexample :
    (get_first_page_with_retry 2 [attemptSkip, ⟨true, true, some dPages3⟩]).2 =
      [] ∧
    (get_first_page_with_retry 2 [attemptSkip, ⟨true, true, some dPages3⟩]).1 =
      (some dPages3, 3) := by
  constructor
  · decide
  · decide

/-- Claim C9 as amended: the attempts on which the first page was
actually fetched and failed (no data received, or an unconfirmed ceiling
count) are archived exactly once each, each archive immediately followed
by the linear backoff sleep of `2 * attempt` seconds; attempts skipped
because session validation and the cookie reload both failed are neither
archived nor delayed; the number of failed fetch attempts is bounded by
the attempt ceiling; and when every attempt fails, discovery returns the
failure indication together with the conventional fallback count 100. -/
theorem claim_C9_amended (maxR : Nat) (attempts : List AttemptInput) :
    (get_first_page_with_retry maxR attempts).2 =
      (failPrefix 0 (attempts.take maxR)).flatMap
        (fun p => [TraceEv.archive p.1 p.2, TraceEv.sleep (2 * p.1)]) ∧
    (failPrefix 0 (attempts.take maxR)).length ≤ maxR ∧
    ((get_first_page_with_retry maxR attempts).1.1 = none →
      (get_first_page_with_retry maxR attempts).1 = (none, 100)) := by
  refine ⟨firstPageGo_trace (attempts.take maxR) 0, ?_, ?_⟩
  · exact (failPrefix_length (attempts.take maxR) 0).trans
      (by rw [List.length_take]; exact Nat.min_le_left _ _)
  · intro h
    exact firstPageGo_none (attempts.take maxR) 0 h

/-- Claim C9 witness: a run with no attempts left returns the fallback
pair. -/
theorem claim_C9_witness :
    (get_first_page_with_retry 1 []).1 = (none, 100) :=
  (claim_C9_amended 1 []).2.2 (by decide)

/-- Claim C10 counterexample: a response containing both the
`apexDomainData` branch and the `serverResponse` branch, where
`apexDomainData` lacks its `data` field, has its `serverResponse` records
extracted — they are not ignored, contrary to the claim. -/
theorem claim_C10_counterexample :
    (dBothBranches.pageProps.map
      (fun pp => pp.apexDomainData.isSome && pp.serverResponse.isSome)).getD
        false = true ∧
    extract_domains_from_data dBothBranches = ["x.com"] := by
  constructor
  · decide
  · decide

/-- Claim C10 as amended: record extraction returns only non-empty
strings that are their own strip (whitespace-trimmed); when the
`apexDomainData` branch carries its `data` field, only it is consulted
and `serverResponse` is ignored (if `apexDomainData` is absent or lacks
`data`, `serverResponse` is consulted instead); and the per-record loop
keeps exactly the records whose hostname is non-empty and
non-whitespace, stripped, silently dropping the rest. -/
theorem claim_C10_amended (d : ApiData) (s : String) (bst : Option Nat)
    (ber : Option String) (bd : BranchData) (srv dns : Option Branch)
    (recs : List RecordJson) :
    (s ∈ extract_domains_from_data d → s ≠ "" ∧ pyStrip s = s) ∧
    extract_domains_from_data ⟨some ⟨some ⟨bst, ber, some bd⟩, srv, dns⟩⟩ =
      (match bd.records with
       | some rs2 => extractRecords rs2
       | none => []) ∧
    extractRecords recs = recs.filterMap (fun rc =>
      if rc.hostname.getD "" ≠ "" ∧ pyStrip (rc.hostname.getD "") ≠ "" then
        some (pyStrip (rc.hostname.getD "")) else none) := by
  refine ⟨?_, rfl, extractRecords_eq_filterMap recs⟩
  intro h
  exact extract_domains_mem d s h

/-- Claim C10 witness: the record "x.com" extracted from a concrete
response is non-empty and already stripped. -/
theorem claim_C10_witness : "x.com" ≠ "" ∧ pyStrip "x.com" = "x.com" :=
  (claim_C10_amended dBothBranches "x.com" none none ⟨none, none⟩ none none []).1
    (by decide)
